import Mathlib

/-!
Verification development for the Seattle pending-sales enrichment pipeline
(`scripts/build_mls_enriched_dataset.js`).  The JavaScript source is embedded
shallowly: pure functions become Lean functions, the mutable exclusion set
becomes explicit state threading, and machine numbers become `Int`/`Nat`
(prices and day counts are integers after the `Math.round` in the source).

Date strings: the source normalizes every date cell with `toIsoDate` (which
returns `""` on failure) and later re-parses with `toDate` (which can still
return `null` on a non-calendar string such as `"2024-13-01"` produced by the
lenient slash-format branch).  We represent the result of that normalization
as `NDate`: `empty` models `toIsoDate` returning `""`, `invalid s` models a
non-empty normalized string `s` that `toDate` rejects, and `valid d` models a
date that parses to day number `d` (days since an arbitrary epoch; the
`Math.round((d2-d1)/86400000)` of the source equals the difference of day numbers).
-/

namespace SeattlePending

inductive NDate where
  | empty : NDate
  | invalid : String → NDate
  | valid : Int → NDate
deriving DecidableEq, Repr

/-- `toDate` of the normalized string: `null` unless the date is a real
calendar date. -/
def NDate.toDate : NDate → Option Int
  | NDate.valid d => some d
  | _ => none

/-- JavaScript string truthiness of the normalized date string. -/
def NDate.nonempty : NDate → Bool
  | NDate.empty => false
  | _ => true

/-- `dayDiff(a, b)` from the source: `null` when either side fails `toDate`,
otherwise the signed whole-day difference `b - a`. -/
def dayDiff (a b : NDate) : Option Int :=
  match a.toDate, b.toDate with
  | some x, some y => some (y - x)
  | _, _ => none

/-! ### String primitives

The string manipulation of the pipeline is ASCII throughout (statuses, headers,
file names); these explicit character-list versions of uppercase/lowercase/
trim/contains/join model the JavaScript operations on that data. -/

def jsCharUpper (c : Char) : Char :=
  if c.toNat ≥ 97 && c.toNat ≤ 122 then Char.ofNat (c.toNat - 32) else c

def jsCharLower (c : Char) : Char :=
  if c.toNat ≥ 65 && c.toNat ≤ 90 then Char.ofNat (c.toNat + 32) else c

def strUpper (s : String) : String := String.mk (s.toList.map jsCharUpper)

def strLower (s : String) : String := String.mk (s.toList.map jsCharLower)

/-- JS `trim()` whitespace on the data at hand. -/
def jsWsChar (c : Char) : Bool :=
  c = ' ' || c = '\t' || c = '\n' || c = '\r'

def strTrim (s : String) : String :=
  String.mk (((s.toList.dropWhile jsWsChar).reverse.dropWhile jsWsChar).reverse)

def charsPrefixOf : List Char → List Char → Bool
  | [], _ => true
  | _ :: _, [] => false
  | a :: as, b :: bs => a = b && charsPrefixOf as bs

def charsInfixOf (pat : List Char) : List Char → Bool
  | [] => pat.isEmpty
  | c :: rest =>
    charsPrefixOf pat (c :: rest) || charsInfixOf pat rest

def charsSuffixOf (pat l : List Char) : Bool :=
  charsPrefixOf pat.reverse l.reverse

def charListLe : List Char → List Char → Bool
  | [], _ => true
  | _ :: _, [] => false
  | a :: as, b :: bs =>
    if a.toNat < b.toNat then true
    else if b.toNat < a.toNat then false
    else charListLe as bs

def strHasChar (s : String) (c : Char) : Bool := s.toList.contains c

/-- `Array.prototype.join(sep)`. -/
def joinWith (sep : String) : List String → String
  | [] => ""
  | [x] => x
  | x :: xs => x ++ sep ++ joinWith sep xs

/-- One county sale row after `readBaseRows`: the claim-relevant derived
fields (`__parcel`, `__saleDate`, `__closePrice`) plus the raw column
association list used when rendering output.  `parcel` is `""` when the
parcel digits are not at least 10 long. -/
structure CountyRow where
  id : String
  parcel : String
  saleDate : NDate
  closePrice : Int
  dataMode : String
  fields : List (String × String)
deriving DecidableEq, Repr

/-- One brokerage (realtor/MLS) row after `readRealtorRows`.  `uid` models the
synthesized unique identifier string (unique because it embeds the source
file name and the row position); the model assigns sequential naturals.
`isClosed` is the closed flag `isClosedStatus || hasCloseRecord`. -/
structure MlsRow where
  uid : Nat
  apn : String
  status : String
  isClosed : Bool
  listingDate : NDate
  pendingDate : NDate
  contractualDate : NDate
  sellingDate : NDate
  listingPrice : Int
  sellingPrice : Int
  dom : Int
deriving DecidableEq, Repr

/-- The closed-sale candidate bucket: `mlsRows.filter((r) => r.isClosed &&
r.sellingDate && r.sellingPrice > 0)`. -/
def mlsClosedRowsOf (rows : List MlsRow) : List MlsRow :=
  rows.filter (fun r => r.isClosed && r.sellingDate.nonempty && r.sellingPrice > 0)

/-- The open-listing bucket: `mlsRows.filter((r) => !r.isClosed)`. -/
def mlsOpenRowsOf (rows : List MlsRow) : List MlsRow :=
  rows.filter (fun r => !r.isClosed)

/-- Closed candidates sharing a parcel key.  The source groups
`mlsClosedRows` into a `Map` keyed by APN in insertion order and looks the
county parcel up; that equals filtering the bucket by the key. -/
def closedCandsFor (rows : List MlsRow) (parcel : String) : List MlsRow :=
  (mlsClosedRowsOf rows).filter (fun r => r.apn = parcel)

/-- Stub candidates sharing a parcel key: the open bucket restricted to rows
with a positive listing price (`if (!r.listingPrice || r.listingPrice <= 0)
return;`), keyed by APN. -/
def stubCandsFor (rows : List MlsRow) (parcel : String) : List MlsRow :=
  ((mlsOpenRowsOf rows).filter (fun r => r.listingPrice > 0)).filter
    (fun r => r.apn = parcel)

/-- Result record of either matcher: score, day lag, absolute price
difference and the selected candidate. -/
structure Best where
  score : Nat
  lag : Nat
  priceDiff : Nat
  candidate : MlsRow
deriving DecidableEq, Repr

/-- `best` update step shared by both matchers: keep the incumbent unless the
score of the new candidate is strictly smaller (`score < best.score`), so the
earliest candidate wins ties. -/
def combineBest (best r : Option Best) : Option Best :=
  match r with
  | none => best
  | some r =>
    match best with
    | none => some r
    | some b => if r.score < b.score then some r else some b

/-- The `candidates.forEach` minimum-tracking loop, parameterized by the
per-candidate filter/score evaluation. -/
def pickBestAux (ev : MlsRow → Option Best) (best : Option Best) :
    List MlsRow → Option Best
  | [] => best
  | c :: cs => pickBestAux ev (combineBest best (ev c)) cs

/-- Closed-sale price tolerance: `priceDiff <= 5000 || priceDiff / basePrice
<= 0.005` where the ratio is taken as `1` for non-positive `basePrice`.  The
division is exact here: `priceDiff / basePrice <= 0.005` iff
`priceDiff * 200 <= basePrice` for positive `basePrice`. -/
def priceOkClosed (basePrice : Int) (priceDiff : Nat) : Bool :=
  priceDiff ≤ 5000 || (basePrice > 0 && (priceDiff : Int) * 200 ≤ basePrice)

/-- The per-candidate body of the `forEach` in `chooseBestMatch`, given a county
row whose sale date already parsed (the caller guards that): exclusion set
check, non-empty selling date and non-zero selling price (`!c.sellingPrice`
rejects exactly zero), parseable selling date, 45-day lag window and price
tolerance; survivors get score `dateLag * 100000 + priceDiff`. -/
def evalClosedCandidate (base : CountyRow) (used : List Nat) (c : MlsRow) :
    Option Best :=
  if used.contains c.uid then none
  else if !c.sellingDate.nonempty || c.sellingPrice = 0 then none
  else
    match base.saleDate.toDate, c.sellingDate.toDate with
    | some bd, some cd =>
      let dateLag := (cd - bd).natAbs
      if dateLag > 45 then none
      else
        let priceDiff := (c.sellingPrice - base.closePrice).natAbs
        if priceOkClosed base.closePrice priceDiff then
          some ⟨dateLag * 100000 + priceDiff, dateLag, priceDiff, c⟩
        else none
    | _, _ => none

/-- `chooseBestMatch(baseRow, candidates, usedIds)`: `null` when the county
sale date of the county row fails `toDate` or its close price is zero (`!basePrice`),
otherwise the minimum-score survivor (earliest on ties). -/
def chooseBestMatch (base : CountyRow) (cands : List MlsRow) (used : List Nat) :
    Option Best :=
  if base.saleDate.toDate = none ∨ base.closePrice = 0 then none
  else pickBestAux (evalClosedCandidate base used) none cands

/-- `stubAnchorDate(c)`: the first JS-truthy (non-empty) of pending date,
contractual date, listing date. -/
def stubAnchorDate (c : MlsRow) : NDate :=
  if c.pendingDate.nonempty then c.pendingDate
  else if c.contractualDate.nonempty then c.contractualDate
  else c.listingDate

/-- `statusStubWeight(status)`: rank of the canonicalized listing status
after uppercasing. -/
def statusStubWeight (status : String) : Nat :=
  let s := strUpper status
  if s = "PENDING" then 0
  else if s = "PENDING INSPECTION" then 1
  else if s = "PENDING BU REQUESTED" then 2
  else if s = "CONTINGENT" then 3
  else if s = "ACTIVE" then 4
  else 5

/-- The per-candidate body of the `forEach` in `chooseBestListingStub`: exclusion
set check, positive listing price, non-empty anchor date, anchor parseable
(`dayDiff` returns `null` otherwise), lag in `[0, 120]`, price-difference
ratio at most 50% (which forces a positive county close price); survivors get
score `lag * 100000 + statusStubWeight * 10000 + priceDiff`. -/
def evalStubCandidate (base : CountyRow) (used : List Nat) (c : MlsRow) :
    Option Best :=
  if used.contains c.uid then none
  else if c.listingPrice ≤ 0 then none
  else if !(stubAnchorDate c).nonempty then none
  else
    match (stubAnchorDate c).toDate, base.saleDate.toDate with
    | some ad, some bd =>
      let lagDays := bd - ad
      if lagDays < 0 ∨ lagDays > 120 then none
      else
        let priceDiff := (c.listingPrice - base.closePrice).natAbs
        if base.closePrice > 0 && (priceDiff : Int) * 2 ≤ base.closePrice then
          some ⟨lagDays.toNat * 100000 + statusStubWeight c.status * 10000 + priceDiff,
            lagDays.toNat, priceDiff, c⟩
        else none
    | _, _ => none

/-- `chooseBestListingStub(baseRow, candidates, usedIds)`: `null` when the
sale date of the county row fails `toDate` or its close price is zero, otherwise
the minimum-score stub survivor. -/
def chooseBestListingStub (base : CountyRow) (cands : List MlsRow)
    (used : List Nat) : Option Best :=
  if base.saleDate.toDate = none ∨ base.closePrice = 0 then none
  else pickBestAux (evalStubCandidate base used) none cands

/-- `buildHotMarketTag(dom, daysToPending)`; `daysToPending` is `null` or a
signed day count. -/
def leOpt (dtp : Option Int) (k : Int) : Bool :=
  match dtp with
  | some v => v ≤ k
  | none => false

def buildHotMarketTag (dom : Int) (dtp : Option Int) : String :=
  if (dom > 0 && dom ≤ 5) || leOpt dtp 5 then "ULTRA_HOT_<=5D"
  else if (dom > 0 && dom ≤ 10) || leOpt dtp 10 then "HOT_MARKET_<=10D"
  else ""

/-- The claim-relevant slice of one output row for a county record after the
matching pass of `main`: the base row, the `dataMode` tag, the join-method
tag (`""` for an unmatched row, whose mls columns are all set to `""`), the
`mlsDateLagDays` column, the hot-market tag and the uid of the consumed
candidate. -/
structure MergedRow where
  base : CountyRow
  dataMode : String
  mlsJoinMethod : String
  mlsDateLagDays : String
  hotMarketTag : String
  matchedUid : Option Nat
deriving DecidableEq, Repr

/-- One iteration of the `rows.map((row) => ...)` matching pass in `main`,
with the candidate indexes passed as lookup functions (parcel key to
bucket): closed-sale matching first; on success the uid of the candidate enters
the exclusion set at once; otherwise the listing-stub fallback; otherwise
the row is left as loaded with every mls column blank. -/
def processRow (ci si : String → List MlsRow) (used : List Nat)
    (row : CountyRow) : MergedRow × List Nat :=
  match chooseBestMatch row (ci row.parcel) used with
  | some m =>
    ({ base := row
       dataMode := "MLS_ENRICHED"
       mlsJoinMethod := "APN_PRICE_DATE_WINDOW"
       mlsDateLagDays := toString m.lag
       hotMarketTag := buildHotMarketTag m.candidate.dom
         (dayDiff m.candidate.listingDate m.candidate.pendingDate)
       matchedUid := some m.candidate.uid }, m.candidate.uid :: used)
  | none =>
    match chooseBestListingStub row (si row.parcel) used with
    | some s =>
      ({ base := row
         dataMode := "MLS_ENRICHED"
         mlsJoinMethod := "APN_LISTING_STUB"
         mlsDateLagDays := toString s.lag
         hotMarketTag := buildHotMarketTag s.candidate.dom
           (dayDiff s.candidate.listingDate s.candidate.pendingDate)
         matchedUid := some s.candidate.uid }, s.candidate.uid :: used)
    | none =>
      ({ base := row
         dataMode := row.dataMode
         mlsJoinMethod := ""
         mlsDateLagDays := ""
         hotMarketTag := ""
         matchedUid := none }, used)

/-- The whole matching pass: county rows in source order, threading the
exclusion set. -/
def processRows (ci si : String → List MlsRow) :
    List CountyRow → List Nat → List MergedRow × List Nat
  | [], used => ([], used)
  | r :: rs, used =>
    let step := processRow ci si used r
    let rest := processRows ci si rs step.2
    (step.1 :: rest.1, rest.2)

/-- A county sale signature `apn|saleDate|closePrice` (modeled as a tuple of
the components the string join concatenates). -/
def countySignatures (rows : List CountyRow) : List (String × NDate × Int) :=
  (rows.filter (fun r => r.parcel ≠ "" ∧ r.saleDate.nonempty = true ∧ r.closePrice > 0)).map
    (fun r => (r.parcel, r.saleDate, r.closePrice))

/-- The claim-relevant slice of a synthesized standalone output row. -/
structure SynthRow where
  uid : Nat
  dataMode : String
  mlsJoinMethod : String
deriving DecidableEq, Repr

/-- The per-record body of the closed pass of the supplemental synthesizer:
skip records already consumed, records without valid apn / selling date /
positive selling price, and records whose sale signature is already a known
county signature; otherwise emit one standalone `MLS_SOLD_NOT_IN_COUNTY`
row. -/
def synthClosedOne (used : List Nat) (known : List (String × NDate × Int))
    (c : MlsRow) : Option SynthRow :=
  if used.contains c.uid then none
  else if c.apn = "" ∨ c.sellingDate.nonempty = false ∨ c.sellingPrice ≤ 0 then none
  else if (c.apn, c.sellingDate, c.sellingPrice) ∈ known then none
  else some ⟨c.uid, "MLS_ENRICHED", "MLS_SOLD_NOT_IN_COUNTY"⟩

/-- The `mlsClosedRows.forEach` synthesis pass (the loop does not mutate the
exclusion set). -/
def synthClosedRows (rows : List MlsRow) (used : List Nat)
    (known : List (String × NDate × Int)) : List SynthRow :=
  rows.filterMap (synthClosedOne used known)

/-- The `mlsOpenRows.forEach` synthesis pass: every unused open-status row
becomes a standalone `MLS_STATUS_OPEN` row. -/
def synthOpenRows (rows : List MlsRow) (used : List Nat) : List SynthRow :=
  rows.filterMap (fun c =>
    if used.contains c.uid then none
    else some ⟨c.uid, "MLS_ENRICHED", "MLS_STATUS_OPEN"⟩)

/-! ### Run-level model

Files are modeled as their non-blank lines already split into trimmed fields
(`parseCsvLine` plus the blank-line filter are the out-of-scope CSV
tokenization layer).  The date normalizer `toIsoDate`/`toDate` ends in a
generic engine-dependent `new Date(raw)` fallback, so the run is
parameterized over the date parser `pd : String → NDate`. -/

def parseNatDigits (l : List Char) : Nat :=
  l.foldl (fun a c => a * 10 + (c.toNat - 48)) 0

/-- A decimal fraction written as a digit list is at least 1/2 iff its first
digit is at least 5. -/
def fracGeHalf : List Char → Bool
  | [] => false
  | d :: _ => d.toNat - 48 ≥ 5

/-- A decimal fraction written as a digit list exceeds 1/2. -/
def fracGtHalf : List Char → Bool
  | [] => false
  | d :: rest => (d.toNat - 48 > 5) || ((d.toNat - 48 = 5) && rest.any (fun c => c ≠ '0'))

/-- `Math.round(num(v))` from the source: strip every character other than
digits, `-` and `.`; `Number("")` is `0`; malformed shapes (interior `-`,
two dots, bare `-` or `.`) are `NaN` and fall back to `0`; otherwise round
half toward positive infinity.  (The model is exact where JS doubles would
lose precision on astronomically long digit strings.) -/
def roundJsNum (s : String) : Int :=
  let filtered := s.toList.filter (fun c => c.isDigit || c = '-' || c = '.')
  match filtered with
  | [] => 0
  | _ =>
    let neg := filtered.head? = some '-'
    let body := if neg then filtered.tail else filtered
    if body.contains '-' then 0
    else
      let intPart := body.takeWhile (fun c => c ≠ '.')
      let rest := body.dropWhile (fun c => c ≠ '.')
      match rest with
      | [] =>
        if intPart.isEmpty then 0
        else if neg then -(parseNatDigits intPart : Int) else (parseNatDigits intPart : Int)
      | _ :: frac =>
        if frac.contains '.' then 0
        else if intPart.isEmpty && frac.isEmpty then 0
        else
          let ip : Int := parseNatDigits intPart
          if neg then -ip - (if fracGtHalf frac then 1 else 0)
          else ip + (if fracGeHalf frac then 1 else 0)

/-- `normalizeApn`: keep only digits, valid iff exactly 10 of them. -/
def normalizeApn (s : String) : String :=
  let digits := s.toList.filter Char.isDigit
  if digits.length = 10 then String.mk digits else ""

/-- Column lookup in a parsed row object (`row[h]`, defaulting to `""`). -/
def getCol (fields : List (String × String)) (h : String) : String :=
  (fields.lookup h).getD ""

/-- `parcelDigits(row)`: digits of `parcelNbr` (or `major ++ minor` when
`parcelNbr` is empty); keep the last 10 when at least 10 are present. -/
def parcelDigits (fields : List (String × String)) : String :=
  let parcelNbr := getCol fields "parcelNbr"
  let src := if parcelNbr ≠ "" then parcelNbr
    else getCol fields "major" ++ getCol fields "minor"
  let digits := src.toList.filter Char.isDigit
  if digits.length ≥ 10 then String.mk ((digits.reverse.take 10).reverse) else ""

/-- JS word character (`\w`). -/
def jsWordChar (c : Char) : Bool :=
  c.isAlpha || c.isDigit || c = '_'

def titleCaseAux : Bool → List Char → List Char
  | _, [] => []
  | prevWord, c :: cs =>
    (if jsWordChar c && !prevWord then jsCharUpper c else c) ::
      titleCaseAux (jsWordChar c) cs

/-- `up.toLowerCase().replace(/\b\w/g, m => m.toUpperCase())`. -/
def jsTitleCase (s : String) : String :=
  String.mk (titleCaseAux false (strLower s).toList)

/-- `normalizeMlsStatus(raw)`: canonical vocabulary, unrecognized statuses
title-cased. -/
def normalizeMlsStatus (raw : String) : String :=
  let up := strUpper (strTrim raw)
  if up = "" then ""
  else if up = "SOLD" then "Sold"
  else if up = "ACTIVE" then "Active"
  else if up = "PENDING" then "Pending"
  else if up = "PENDING INSPECTION" then "Pending Inspection"
  else if up = "PENDING BU REQUESTED" then "Pending BU Requested"
  else if up = "CONTINGENT" then "Contingent"
  else jsTitleCase up

/-- `/sold|closed/i.test(status)`. -/
def isClosedStatusOf (status : String) : Bool :=
  charsInfixOf "SOLD".toList (strUpper status).toList ||
  charsInfixOf "CLOSED".toList (strUpper status).toList

/-- `normalizeHeaderNames`: trim each header and suffix repeats with
`" (2)"`, `" (3)"`, ... -/
def normalizeHeaderNames (headers : List String) : List String :=
  (headers.foldl (fun (acc : List String × List (String × Nat)) h =>
      let key := strTrim h
      let n := ((acc.2.lookup key).getD 0) + 1
      (acc.1 ++ [if n = 1 then key else key ++ " (" ++ toString n ++ ")"],
       (key, n) :: acc.2))
    ([], [])).1

/-- `findHeaderIndex`: first line whose trimmed fields include both `APN`
and `Status`. -/
def findHeaderIndex (lines : List (List String)) : Option Nat :=
  lines.findIdx? (fun cols =>
    (cols.map strTrim).contains "APN" && (cols.map strTrim).contains "Status")

inductive PipelineError where
  | missingBase
  | missingDir
  | noRealtorFiles
  | headerNotFound (file : String)
  | missingColumns (file : String) (cols : List String)
deriving DecidableEq, Repr

def requiredRealtorColumns : List String :=
  ["APN", "Status", "Listing Date", "Pending Date", "Contractual Date",
   "Selling Date", "Listing Price", "Original Price", "Selling Price", "DOM", "CDOM"]

/-- Build one parsed realtor row object (realtor cells are trimmed) and
normalize it; rows without a valid 10-digit APN are dropped. -/
def mkMlsRow (pd : String → NDate) (uid : Nat) (headers : List String)
    (cols : List String) : Option MlsRow :=
  let fields := headers.enum.map (fun p => (p.2, strTrim ((cols.get? p.1).getD "")))
  let status := normalizeMlsStatus (getCol fields "Status")
  let sellingDate := pd (getCol fields "Selling Date")
  let sellingPrice := roundJsNum (getCol fields "Selling Price")
  let apn := normalizeApn (getCol fields "APN")
  if apn = "" then none
  else some
    { uid := uid
      apn := apn
      status := status
      isClosed := isClosedStatusOf status || (sellingDate.nonempty && sellingPrice > 0)
      listingDate := pd (getCol fields "Listing Date")
      pendingDate := pd (getCol fields "Pending Date")
      contractualDate := pd (getCol fields "Contractual Date")
      sellingDate := sellingDate
      listingPrice := roundJsNum (getCol fields "Listing Price")
      sellingPrice := sellingPrice
      dom := roundJsNum (getCol fields "DOM") }

/-- One realtor export file: files with fewer than 2 non-blank lines are
silently skipped; a missing header row (or a header row that is the last
line) and missing required columns are fatal.  Returns the parsed rows and
the number of data lines consumed (for unique uid numbering). -/
def readRealtorFile (pd : String → NDate) (uidBase : Nat) (name : String)
    (lines : List (List String)) : Except PipelineError (List MlsRow × Nat) :=
  if lines.length < 2 then .ok ([], 0)
  else
    match findHeaderIndex lines with
    | none => .error (.headerNotFound name)
    | some i =>
      if lines.length - 1 ≤ i then .error (.headerNotFound name)
      else
        let headers := normalizeHeaderNames ((lines.get? i).getD [])
        let missing := requiredRealtorColumns.filter (fun h => !headers.contains h)
        if missing.isEmpty then
          let dataLines := lines.drop (i + 1)
          .ok (dataLines.enum.filterMap (fun p => mkMlsRow pd (uidBase + p.1) headers p.2),
               dataLines.length)
        else .error (.missingColumns name missing)

/-- `readRealtorRows` over the discovered files, threading the uid counter. -/
def readRealtorRowsAux (pd : String → NDate) :
    Nat → List (String × List (List String)) → Except PipelineError (List MlsRow)
  | _, [] => .ok []
  | uidBase, (name, lines) :: rest =>
    match readRealtorFile pd uidBase name lines with
    | .error e => .error e
    | .ok (rows, consumed) =>
      match readRealtorRowsAux pd (uidBase + consumed) rest with
      | .error e => .error e
      | .ok more => .ok (rows ++ more)

/-- `/\.csv$/i` and the leading-dot exclusion. -/
def isCsvName (name : String) : Bool :=
  charsSuffixOf ".csv".toList (strLower name).toList &&
  !charsPrefixOf ".".toList name.toList

def insertByName (x : String × List (List String)) :
    List (String × List (List String)) → List (String × List (List String))
  | [] => [x]
  | y :: ys =>
    if charListLe x.1.toList y.1.toList then x :: y :: ys
    else y :: insertByName x ys

/-- `discoverRealtorFiles`: the `.csv` entries sorted by name
(`localeCompare` modeled as the code-unit order). -/
def discoverRealtorFiles (entries : List (String × List (List String))) :
    List (String × List (List String)) :=
  (entries.filter (fun e => isCsvName e.1)).foldr insertByName []

/-- `mkCountyRow`: one base row object (`obj[h] = cols[i] || ""`) with the
derived `__parcel`, `__saleDate`, `__closePrice` fields. -/
def mkCountyRow (pd : String → NDate) (headers : List String)
    (cols : List String) : CountyRow :=
  let fields := headers.enum.map (fun p => (p.2, (cols.get? p.1).getD ""))
  { id := getCol fields "id"
    parcel := parcelDigits fields
    saleDate := pd (getCol fields "saleDate")
    closePrice := roundJsNum (getCol fields "closePrice")
    dataMode := getCol fields "dataMode"
    fields := fields }

def readBaseRows (pd : String → NDate) (lines : List (List String)) :
    List String × List CountyRow :=
  match lines with
  | [] => ([], [])
  | headers :: rest => (headers, rest.map (mkCountyRow pd headers))

/-- `safeCsv`: quote values containing comma, quote or newline, doubling
interior quotes. -/
def safeCsv (s : String) : String :=
  if strHasChar s ',' || strHasChar s '"' || strHasChar s '\n' then
    "\"" ++
      String.mk (s.toList.foldr
        (fun c acc => if c = '"' then '"' :: '"' :: acc else c :: acc) []) ++
      "\""
  else s

def extraColumns : List String :=
  ["mlsListingNumber", "mlsStatus", "mlsRegion", "mlsSellingDate",
   "mlsContractualDate", "mlsListingPrice", "mlsSellingPrice",
   "mlsOriginalPrice", "mlsDOM", "mlsCDOM", "mlsStyleCode", "mlsSubdivision",
   "mlsDateLagDays", "mlsJoinMethod", "mlsDaysToPending",
   "mlsDaysPendingToSale", "hotMarketTag", "saleToListRat" ++ "io",
   "saleToOriginalListRat" ++ "io", "bidUpAmount", "bidUpPct"]

/-- Output value of a merged county row in column `h`.  The model tracks the
tag/enrichment columns the claims mention; the remaining (descriptive) MLS
override columns render from the fields of the base row. -/
def renderMergedVal (m : MergedRow) (h : String) : String :=
  if h = "dataMode" then m.dataMode
  else if h = "mlsJoinMethod" then m.mlsJoinMethod
  else if h = "mlsDateLagDays" then m.mlsDateLagDays
  else if h = "hotMarketTag" then m.hotMarketTag
  else getCol m.base.fields h

/-- Output value of a synthesized standalone row in column `h` (descriptive
backfill columns are elided; absent columns render as `""`, matching
`row[h] || ""`). -/
def renderSynthVal (r : SynthRow) (h : String) : String :=
  if h = "dataMode" then r.dataMode
  else if h = "mlsJoinMethod" then r.mlsJoinMethod
  else ""

/-- The output CSV text: header line (joined without quoting, as in the
source), then merged county rows, then synthesized closed rows, then
synthesized open rows; `lines.join("\n") + "\n"`. -/
def renderCsv (allHeaders : List String) (merged : List MergedRow)
    (synthC synthO : List SynthRow) : String :=
  let rowLine := fun (vals : List String) => joinWith "," (vals.map safeCsv)
  joinWith "\n"
    (joinWith "," allHeaders ::
      (merged.map (fun m => rowLine (allHeaders.map (renderMergedVal m))) ++
       (synthC ++ synthO).map (fun r => rowLine (allHeaders.map (renderSynthVal r)))))
    ++ "\n"

structure ReportCounts where
  mlsRowsParsed : Nat
  mlsClosedRows : Nat
  mlsActiveRows : Nat
  mlsOpenStatusRows : Nat
  baseRows : Nat
  matchedCountyRows : Nat
  countyRowsEnrichedWithListingStub : Nat
  mlsOnlySoldRowsAdded : Nat
  mlsOnlyOpenRowsAdded : Nat
  outputRows : Nat
deriving DecidableEq, Repr

def jsonLb : String := "\x7b"
def jsonRb : String := "\x7d"

def jsonStringArray (indent : String) (items : List String) : String :=
  match items with
  | [] => "[]"
  | _ =>
    "[\n" ++ joinWith ",\n"
      (items.map (fun s => indent ++ "  \"" ++ s ++ "\"")) ++
    "\n" ++ indent ++ "]"

/-- The refresh report as written by `writeRefreshReport`
(`JSON.stringify(report, null, 2)` plus a trailing newline).  Note the
`generatedAt` field: it is the wall-clock timestamp of the run
(`new Date().toISOString()`), not a function of the inputs. -/
def reportJson (now : String) (fileNames : List String) (c : ReportCounts) :
    String :=
  jsonLb ++ "\n" ++
  "  \"generatedAt\": \"" ++ now ++ "\",\n" ++
  "  \"source\": " ++ jsonLb ++ "\n" ++
  "    \"baseFile\": \"public_sales_proxy_all_prices_last12mo.csv\",\n" ++
  "    \"realtorDir\": \"realtor_exports\",\n" ++
  "    \"realtorFiles\": " ++ jsonStringArray "    " fileNames ++ "\n" ++
  "  " ++ jsonRb ++ ",\n" ++
  "  \"counts\": " ++ jsonLb ++ "\n" ++
  "    \"mlsRowsParsed\": " ++ toString c.mlsRowsParsed ++ ",\n" ++
  "    \"mlsClosedRows\": " ++ toString c.mlsClosedRows ++ ",\n" ++
  "    \"mlsActiveRows\": " ++ toString c.mlsActiveRows ++ ",\n" ++
  "    \"mlsOpenStatusRows\": " ++ toString c.mlsOpenStatusRows ++ ",\n" ++
  "    \"baseRows\": " ++ toString c.baseRows ++ ",\n" ++
  "    \"matchedCountyRows\": " ++ toString c.matchedCountyRows ++ ",\n" ++
  "    \"countyRowsEnrichedWithListingStub\": " ++
    toString c.countyRowsEnrichedWithListingStub ++ ",\n" ++
  "    \"mlsOnlySoldRowsAdded\": " ++ toString c.mlsOnlySoldRowsAdded ++ ",\n" ++
  "    \"mlsOnlyOpenRowsAdded\": " ++ toString c.mlsOnlyOpenRowsAdded ++ ",\n" ++
  "    \"outputRows\": " ++ toString c.outputRows ++ "\n" ++
  "  " ++ jsonRb ++ ",\n" ++
  "  \"outputs\": " ++ jsonLb ++ "\n" ++
  "    \"enrichedCsv\": \"public_sales_proxy_mls_enriched_last12mo.csv\"\n" ++
  "  " ++ jsonRb ++ "\n" ++
  jsonRb ++ "\n"

/-- The inputs the pipeline reads: the base dataset file and the realtor
export directory, each possibly absent, with file contents as lines of
trimmed fields. -/
structure FileSystem where
  baseFile : Option (List (List String))
  realtorDir : Option (List (String × List (List String)))

structure WriteEvent where
  path : String
  content : String
deriving DecidableEq, Repr

structure RunOk where
  csv : String
  realtorFileNames : List String
  counts : ReportCounts
deriving DecidableEq, Repr

def outputCsvName : String := "public_sales_proxy_mls_enriched_last12mo.csv"
def reportJsonName : String := "data_refresh_report.json"

/-- The fallible stages of `main` in source order: existence checks for the
base file and the realtor directory, the empty-directory check, base
parsing, realtor parsing (header / required-column errors), then the pure
matching, synthesis, assembly and counting passes. -/
def runCore (pd : String → NDate) (fs : FileSystem) :
    Except PipelineError RunOk :=
  match fs.baseFile with
  | none => .error .missingBase
  | some baseLines =>
    match fs.realtorDir with
    | none => .error .missingDir
    | some entries =>
      let files := discoverRealtorFiles entries
      if files.isEmpty then .error .noRealtorFiles
      else
        let base := readBaseRows pd baseLines
        match readRealtorRowsAux pd 0 files with
        | .error e => .error e
        | .ok mls =>
          let headers := base.1
          let crows := base.2
          let closedRows := mlsClosedRowsOf mls
          let openRows := mlsOpenRowsOf mls
          let activeRows := mls.filter (fun r => r.status = "Active" && !r.isClosed)
          let known := countySignatures crows
          let res := processRows (closedCandsFor mls) (stubCandsFor mls) crows []
          let merged := res.1
          let used := res.2
          let synthC := synthClosedRows closedRows used known
          let synthO := synthOpenRows openRows used
          let allHeaders := headers ++ extraColumns.filter (fun h => !headers.contains h)
          .ok
            { csv := renderCsv allHeaders merged synthC synthO
              realtorFileNames := files.map (fun f => f.1)
              counts :=
                { mlsRowsParsed := mls.length
                  mlsClosedRows := closedRows.length
                  mlsActiveRows := activeRows.length
                  mlsOpenStatusRows := openRows.length
                  baseRows := crows.length
                  matchedCountyRows :=
                    (merged.filter (fun m => m.mlsJoinMethod = "APN_PRICE_DATE_WINDOW")).length
                  countyRowsEnrichedWithListingStub :=
                    (merged.filter (fun m => m.mlsJoinMethod = "APN_LISTING_STUB")).length
                  mlsOnlySoldRowsAdded := synthC.length
                  mlsOnlyOpenRowsAdded := synthO.length
                  outputRows := merged.length + synthC.length + synthO.length } }

/-- One run of the pipeline at wall-clock instant `now`: every fatal error
happens during `runCore`, before either `fs.writeFileSync`; on success the
enriched CSV is written first, then the JSON report. -/
def run (pd : String → NDate) (fs : FileSystem) (now : String) :
    List WriteEvent × Option PipelineError :=
  match runCore pd fs with
  | .error e => ([], some e)
  | .ok r =>
    ([⟨outputCsvName, r.csv⟩,
      ⟨reportJsonName, reportJson now r.realtorFileNames r.counts⟩], none)

/-! ### Concrete inputs used by the scenario conjuncts, counterexamples and
witnesses -/

/-- Spec scenario county record: sale on day 0, close price 500000. -/
def exBase : CountyRow :=
  { id := "b1", parcel := "1234560010", saleDate := .valid 0, closePrice := 500000,
    dataMode := "PUBLIC_PROXY", fields := [] }

/-- Spec scenario candidate at date lag 3 and price difference 2000. -/
def exCandLag3 : MlsRow :=
  { uid := 10, apn := "1234560010", status := "Sold", isClosed := true,
    listingDate := .empty, pendingDate := .empty, contractualDate := .empty,
    sellingDate := .valid 3, listingPrice := 480000, sellingPrice := 502000, dom := 0 }

/-- Spec scenario candidate at date lag 1 and price difference 4000. -/
def exCandLag1 : MlsRow :=
  { exCandLag3 with uid := 11, sellingDate := .valid 1, sellingPrice := 504000 }

/-- County record for the stub counterexample: sale day 0, close 500000. -/
def cexStubBase : CountyRow :=
  { id := "b2", parcel := "1234560010", saleDate := .valid 0, closePrice := 500000,
    dataMode := "PUBLIC_PROXY", fields := [] }

/-- Stub candidate: status Pending (weight 0), anchor 10 days before the
sale, listing price 475000 (price difference 25000, within the 50% window). -/
def cexStubA : MlsRow :=
  { uid := 20, apn := "1234560010", status := "Pending", isClosed := false,
    listingDate := .empty, pendingDate := .valid (-10), contractualDate := .empty,
    sellingDate := .empty, listingPrice := 475000, sellingPrice := 0, dom := 0 }

/-- Stub candidate: status Pending BU Requested (weight 2), same anchor,
listing price 499000 (price difference 1000). -/
def cexStubB : MlsRow :=
  { cexStubA with uid := 21, status := "Pending BU Requested", listingPrice := 499000 }

/-- County record with a valid sale date but a negative close price. -/
def cexNegBase : CountyRow :=
  { id := "b3", parcel := "1234560010", saleDate := .valid 0, closePrice := -100,
    dataMode := "PUBLIC_PROXY", fields := [] }

/-- Closed candidate matching `cexNegBase` (lag 0, price difference 1100). -/
def cexNegCand : MlsRow :=
  { exCandLag3 with uid := 30, sellingDate := .valid 0, sellingPrice := 1000 }

/-- County record whose close price is exactly zero. -/
def cexZeroBase : CountyRow :=
  { id := "b4", parcel := "1234560010", saleDate := .valid 0, closePrice := 0,
    dataMode := "PUBLIC_PROXY", fields := [] }

/-- A closed-flagged realtor record with an empty selling date and zero
selling price: it lands in neither candidate bucket. -/
def cexInertRow : MlsRow :=
  { uid := 40, apn := "1234560010", status := "Sold", isClosed := true,
    listingDate := .empty, pendingDate := .empty, contractualDate := .empty,
    sellingDate := .empty, listingPrice := 0, sellingPrice := 0, dom := 0 }

/-- Degenerate date parser (every cell unparsable) for run-level concrete
inputs. -/
def pdEmptyParse : String → NDate := fun _ => NDate.empty

/-- A file system with neither the base dataset nor the realtor directory. -/
def fsNoBase : FileSystem := { baseFile := none, realtorDir := none }

/-- A minimal complete file system on which the pipeline succeeds. -/
def fsEx : FileSystem :=
  { baseFile := some [["id", "saleDate", "closePrice"], ["r1", "", ""]]
    realtorDir := some [("a.csv",
      [["APN", "Status", "Listing Date", "Pending Date", "Contractual Date",
        "Selling Date", "Listing Price", "Original Price", "Selling Price",
        "DOM", "CDOM"],
       ["", "", "", "", "", "", "", "", "", "", ""]])] }

/-! ### Matcher lemmas -/

theorem combineBest_eq_some {best r : Option Best} {m : Best}
    (h : combineBest best r = some m) : best = some m ∨ r = some m := by
  unfold combineBest at h
  cases r with
  | none => exact Or.inl h
  | some r =>
    cases best with
    | none => exact Or.inr h
    | some b =>
      by_cases hs : r.score < b.score
      · simp only [hs, if_true] at h
        exact Or.inr h
      · simp only [hs, if_false] at h
        exact Or.inl h

theorem combineBest_isSome_left {best r : Option Best} (h : best.isSome) :
    (combineBest best r).isSome := by
  unfold combineBest
  cases r with
  | none => exact h
  | some r =>
    cases best with
    | none => rfl
    | some b => by_cases hs : r.score < b.score <;> simp [hs]

theorem combineBest_isSome_right {best r : Option Best} (h : r.isSome) :
    (combineBest best r).isSome := by
  unfold combineBest
  cases r with
  | none => exact absurd h (by simp)
  | some r =>
    cases best with
    | none => rfl
    | some b => by_cases hs : r.score < b.score <;> simp [hs]

theorem combineBest_left_bound {best : Option Best} (r : Option Best)
    {b : Best} (hb : best = some b) :
    ∃ x, combineBest best r = some x ∧ x.score ≤ b.score := by
  subst hb
  cases r with
  | none => exact ⟨b, rfl, le_refl _⟩
  | some r =>
    by_cases hs : r.score < b.score
    · exact ⟨r, by simp [combineBest, hs], le_of_lt hs⟩
    · exact ⟨b, by simp [combineBest, hs], le_refl _⟩

theorem combineBest_right_bound (best : Option Best) {r : Option Best}
    {s : Best} (hr : r = some s) :
    ∃ x, combineBest best r = some x ∧ x.score ≤ s.score := by
  subst hr
  cases best with
  | none => exact ⟨s, rfl, le_refl _⟩
  | some b =>
    by_cases hs : s.score < b.score
    · exact ⟨s, by simp [combineBest, hs], le_refl _⟩
    · exact ⟨b, by simp [combineBest, hs], Nat.le_of_not_lt hs⟩

theorem pickBestAux_spec (ev : MlsRow → Option Best) :
    ∀ (cs : List MlsRow) (best : Option Best) (m : Best),
      pickBestAux ev best cs = some m →
      (best = some m ∨ ∃ c ∈ cs, ev c = some m) ∧
      (∀ b, best = some b → m.score ≤ b.score) ∧
      (∀ c ∈ cs, ∀ r, ev c = some r → m.score ≤ r.score) := by
  intro cs
  induction cs with
  | nil =>
    intro best m h
    simp only [pickBestAux] at h
    refine ⟨Or.inl h, ?_, ?_⟩
    · intro b hb
      rw [h] at hb
      cases hb
      exact le_refl _
    · intro c hc
      exact absurd hc (by simp)
  | cons a cs ih =>
    intro best m h
    simp only [pickBestAux] at h
    obtain ⟨hmem, hle, hall⟩ := ih (combineBest best (ev a)) m h
    refine ⟨?_, ?_, ?_⟩
    · rcases hmem with hc | ⟨c, hcm, hcv⟩
      · rcases combineBest_eq_some hc with h1 | h2
        · exact Or.inl h1
        · exact Or.inr ⟨a, List.mem_cons_self a cs, h2⟩
      · exact Or.inr ⟨c, List.mem_cons_of_mem a hcm, hcv⟩
    · intro b hb
      obtain ⟨x, hx, hxb⟩ := combineBest_left_bound (ev a) hb
      exact le_trans (hle x hx) hxb
    · intro c hc r hr
      rcases List.mem_cons.mp hc with rfl | hc'
      · obtain ⟨x, hx, hxr⟩ := combineBest_right_bound best hr
        exact le_trans (hle x hx) hxr
      · exact hall c hc' r hr

theorem pickBestAux_isSome_of_best (ev : MlsRow → Option Best) :
    ∀ (cs : List MlsRow) (best : Option Best), best.isSome →
      (pickBestAux ev best cs).isSome := by
  intro cs
  induction cs with
  | nil => intro best h; exact h
  | cons a cs ih =>
    intro best h
    simp only [pickBestAux]
    exact ih _ (combineBest_isSome_left h)

theorem pickBestAux_isSome (ev : MlsRow → Option Best) :
    ∀ (cs : List MlsRow) (best : Option Best),
      (∃ c ∈ cs, (ev c).isSome) → (pickBestAux ev best cs).isSome := by
  intro cs
  induction cs with
  | nil =>
    intro best h
    obtain ⟨c, hc, _⟩ := h
    exact absurd hc (by simp)
  | cons a cs ih =>
    intro best h
    obtain ⟨c, hc, hcs⟩ := h
    simp only [pickBestAux]
    rcases List.mem_cons.mp hc with rfl | hc'
    · exact pickBestAux_isSome_of_best ev cs _ (combineBest_isSome_right hcs)
    · exact ih _ ⟨c, hc', hcs⟩

theorem evalClosedCandidate_spec {base : CountyRow} {used : List Nat}
    {c : MlsRow} {r : Best} (h : evalClosedCandidate base used c = some r) :
    r.candidate = c ∧ r.score = r.lag * 100000 + r.priceDiff ∧
    used.contains c.uid = false := by
  unfold evalClosedCandidate at h
  split at h
  · exact absurd h (by simp)
  · split at h
    · exact absurd h (by simp)
    · split at h
      · simp only [] at h
        split at h
        · exact absurd h (by simp)
        · split at h
          · cases h
            refine ⟨rfl, rfl, ?_⟩
            simp_all
          · exact absurd h (by simp)
      · exact absurd h (by simp)

theorem evalStubCandidate_spec {base : CountyRow} {used : List Nat}
    {c : MlsRow} {r : Best} (h : evalStubCandidate base used c = some r) :
    r.candidate = c ∧
    r.score = r.lag * 100000 + statusStubWeight c.status * 10000 + r.priceDiff ∧
    used.contains c.uid = false := by
  unfold evalStubCandidate at h
  split at h
  · exact absurd h (by simp)
  · split at h
    · exact absurd h (by simp)
    · split at h
      · exact absurd h (by simp)
      · split at h
        · simp only [] at h
          split at h
          · exact absurd h (by simp)
          · split at h
            · cases h
              refine ⟨rfl, rfl, ?_⟩
              simp_all
            · exact absurd h (by simp)
        · exact absurd h (by simp)

theorem chooseBestMatch_some {base : CountyRow} {cands : List MlsRow}
    {used : List Nat} {m : Best}
    (h : chooseBestMatch base cands used = some m) :
    m.candidate ∈ cands ∧ evalClosedCandidate base used m.candidate = some m ∧
    ∀ c ∈ cands, ∀ r, evalClosedCandidate base used c = some r →
      m.score ≤ r.score := by
  unfold chooseBestMatch at h
  split at h
  · exact absurd h (by simp)
  · obtain ⟨hmem, _, hall⟩ := pickBestAux_spec _ cands none m h
    rcases hmem with hc | ⟨c, hcm, hcv⟩
    · exact absurd hc (by simp)
    · have hcand := (evalClosedCandidate_spec hcv).1
      rw [← hcand] at hcm hcv
      exact ⟨hcm, hcv, hall⟩

theorem chooseBestMatch_isSome {base : CountyRow} {cands : List MlsRow}
    {used : List Nat} (hd : base.saleDate.toDate ≠ none)
    (hp : base.closePrice ≠ 0)
    (hex : ∃ c ∈ cands, (evalClosedCandidate base used c).isSome) :
    (chooseBestMatch base cands used).isSome := by
  unfold chooseBestMatch
  split
  · rename_i hg
    rcases hg with hg | hg
    · exact absurd hg hd
    · exact absurd hg hp
  · exact pickBestAux_isSome _ cands none hex

theorem chooseBestListingStub_some {base : CountyRow} {cands : List MlsRow}
    {used : List Nat} {m : Best}
    (h : chooseBestListingStub base cands used = some m) :
    m.candidate ∈ cands ∧ evalStubCandidate base used m.candidate = some m ∧
    ∀ c ∈ cands, ∀ r, evalStubCandidate base used c = some r →
      m.score ≤ r.score := by
  unfold chooseBestListingStub at h
  split at h
  · exact absurd h (by simp)
  · obtain ⟨hmem, _, hall⟩ := pickBestAux_spec _ cands none m h
    rcases hmem with hc | ⟨c, hcm, hcv⟩
    · exact absurd hc (by simp)
    · have hcand := (evalStubCandidate_spec hcv).1
      rw [← hcand] at hcm hcv
      exact ⟨hcm, hcv, hall⟩

theorem chooseBestListingStub_isSome {base : CountyRow} {cands : List MlsRow}
    {used : List Nat} (hd : base.saleDate.toDate ≠ none)
    (hp : base.closePrice ≠ 0)
    (hex : ∃ c ∈ cands, (evalStubCandidate base used c).isSome) :
    (chooseBestListingStub base cands used).isSome := by
  unfold chooseBestListingStub
  split
  · rename_i hg
    rcases hg with hg | hg
    · exact absurd hg hd
    · exact absurd hg hp
  · exact pickBestAux_isSome _ cands none hex

/-! ### Claim theorems -/

/-- C1: For every county record with a valid sale date and positive close
price, the closed-sale matcher returns (when it returns anything) a
candidate that survives the exclusion-set, date-lag and price-tolerance
filters and minimizes the composite score `dateLag * 100000 + priceDiff`
over all survivors, so date proximity dominates and price proximity is the
tie-break; it returns a match whenever some candidate survives; and in the
spec scenario the lag=1/priceDiff=4000 candidate is chosen over the
lag=3/priceDiff=2000 one. -/
theorem closed_match_selects_min_score :
    ∀ (base : CountyRow) (cands : List MlsRow) (used : List Nat),
      base.saleDate.toDate ≠ none → 0 < base.closePrice →
      ((∀ m, chooseBestMatch base cands used = some m →
          m.candidate ∈ cands ∧
          evalClosedCandidate base used m.candidate = some m ∧
          m.score = m.lag * 100000 + m.priceDiff ∧
          ∀ c ∈ cands, ∀ r, evalClosedCandidate base used c = some r →
            m.lag * 100000 + m.priceDiff ≤ r.lag * 100000 + r.priceDiff) ∧
        ((∃ c ∈ cands, (evalClosedCandidate base used c).isSome) →
          (chooseBestMatch base cands used).isSome)) ∧
      (chooseBestMatch exBase [exCandLag3, exCandLag1] []).map
          (fun m => m.candidate.uid) = some exCandLag1.uid := by
  intro base cands used hd hp
  refine ⟨⟨?_, ?_⟩, by decide⟩
  · intro m hm
    obtain ⟨hmem, heval, hall⟩ := chooseBestMatch_some hm
    have hself := evalClosedCandidate_spec heval
    refine ⟨hmem, heval, hself.2.1, ?_⟩
    intro c hc r hr
    have hr' := evalClosedCandidate_spec hr
    calc m.lag * 100000 + m.priceDiff = m.score := hself.2.1.symm
      _ ≤ r.score := hall c hc r hr
      _ = r.lag * 100000 + r.priceDiff := hr'.2.1
  · intro hex
    exact chooseBestMatch_isSome hd (ne_of_gt hp) hex

theorem closed_match_selects_min_score_witness :
    exBase.saleDate.toDate ≠ none ∧ 0 < exBase.closePrice ∧
    (chooseBestMatch exBase [exCandLag3, exCandLag1] []).isSome := by
  refine ⟨by decide, by decide, ?_⟩
  exact (closed_match_selects_min_score exBase [exCandLag3, exCandLag1] []
    (by decide) (by decide)).1.2 ⟨exCandLag1, by decide, by decide⟩

/-- C2 (amended): the listing-stub matcher selects the survivor minimizing
`lag * 100000 + statusWeight * 10000 + priceDiff` (Pending=0,
Pending Inspection=1, Pending BU Requested=2, Contingent=3, Active=4,
other=5); among survivors with equal lag, a candidate with strictly smaller
statusWeight is preferred provided the price advantage of the competitor
is below 10000 per step of status weight — a price-difference gap of 10000
or more can override the status order. -/
theorem stub_match_selects_min_score :
    ∀ (base : CountyRow) (cands : List MlsRow) (used : List Nat),
      base.saleDate.toDate ≠ none → base.closePrice ≠ 0 →
      ((∀ m, chooseBestListingStub base cands used = some m →
          m.candidate ∈ cands ∧
          evalStubCandidate base used m.candidate = some m ∧
          m.score = m.lag * 100000 +
            statusStubWeight m.candidate.status * 10000 + m.priceDiff ∧
          ∀ c ∈ cands, ∀ r, evalStubCandidate base used c = some r →
            m.lag * 100000 + statusStubWeight m.candidate.status * 10000 +
                m.priceDiff ≤
              r.lag * 100000 + statusStubWeight c.status * 10000 +
                r.priceDiff) ∧
        ((∃ c ∈ cands, (evalStubCandidate base used c).isSome) →
          (chooseBestListingStub base cands used).isSome)) ∧
      (∀ a b ra rb, a ∈ cands → b ∈ cands →
        evalStubCandidate base used a = some ra →
        evalStubCandidate base used b = some rb →
        ra.lag = rb.lag →
        statusStubWeight a.status < statusStubWeight b.status →
        ra.priceDiff < rb.priceDiff + 10000 →
        ra.score < rb.score ∧
        ∀ m, chooseBestListingStub base cands used = some m →
          m.candidate ≠ b) := by
  intro base cands used hd hp
  refine ⟨⟨?_, ?_⟩, ?_⟩
  · intro m hm
    obtain ⟨hmem, heval, hall⟩ := chooseBestListingStub_some hm
    have hself := evalStubCandidate_spec heval
    refine ⟨hmem, heval, hself.2.1, ?_⟩
    intro c hc r hr
    have hr' := evalStubCandidate_spec hr
    calc m.lag * 100000 + statusStubWeight m.candidate.status * 10000 + m.priceDiff
        = m.score := hself.2.1.symm
      _ ≤ r.score := hall c hc r hr
      _ = r.lag * 100000 + statusStubWeight c.status * 10000 + r.priceDiff := hr'.2.1
  · intro hex
    exact chooseBestListingStub_isSome hd hp hex
  · intro a b ra rb _ hbm hra hrb hlag hw hpd
    have hsa := evalStubCandidate_spec hra
    have hsb := evalStubCandidate_spec hrb
    have hscore : ra.score < rb.score := by
      rw [hsa.2.1, hsb.2.1, hlag]
      omega
    refine ⟨hscore, ?_⟩
    intro m hm heq
    obtain ⟨_, heval, hall⟩ := chooseBestListingStub_some hm
    rw [heq, hrb] at heval
    have hmrb : m = rb := by
      exact (Option.some.inj heval).symm
    have hle : m.score ≤ ra.score := by
      have := hall a ‹a ∈ cands› ra hra
      exact this
    rw [hmrb] at hle
    omega

theorem stub_match_selects_min_score_witness :
    cexStubBase.saleDate.toDate ≠ none ∧ cexStubBase.closePrice ≠ 0 ∧
    (chooseBestListingStub cexStubBase [cexStubA, cexStubB] []).isSome := by
  refine ⟨by decide, by decide, ?_⟩
  exact (stub_match_selects_min_score cexStubBase [cexStubA, cexStubB] []
    (by decide) (by decide)).1.2 ⟨cexStubA, by decide, by decide⟩

set_option maxRecDepth 4000 in
/-- C2 counterexample: two stub survivors with equal lag 10; the
Pending-status candidate (statusWeight 0, priceDiff 25000) loses to the
Pending BU Requested candidate (statusWeight 2, priceDiff 1000), because
the 24000 price-difference gap outweighs the 20000 status penalty — so a
strictly smaller statusWeight is not "always preferred regardless of the
price differences of the candidates". -/
theorem stub_status_not_always_dominant_cex :
    chooseBestListingStub cexStubBase [cexStubA, cexStubB] [] =
      some ⟨1021000, 10, 1000, cexStubB⟩ ∧
    (evalStubCandidate cexStubBase [] cexStubA).map Best.lag = some 10 ∧
    (evalStubCandidate cexStubBase [] cexStubB).map Best.lag = some 10 ∧
    statusStubWeight cexStubA.status < statusStubWeight cexStubB.status := by
  decide

/-- C5 counterexample: at DOM = 0 (e.g. an empty DOM cell, coerced to 0)
with no days-to-pending, the claimed rule "ULTRA_HOT_<=5D if DOM ≤ 5"
fails: the code additionally requires DOM > 0 and returns the empty
string. -/
theorem hot_tag_dom_nonpositive_cex :
    (0 : Int) ≤ 5 ∧ buildHotMarketTag 0 none ≠ "ULTRA_HOT_<=5D" ∧
    buildHotMarketTag 0 none = "" := by
  decide

/-- C5 (amended): the hot-market tag is `ULTRA_HOT_<=5D` when DOM is
positive and at most 5 or days-to-pending is present and at most 5, else
`HOT_MARKET_<=10D` when DOM is positive and at most 10 or days-to-pending
is present and at most 10, else empty; in particular DOM = 5 gives
`ULTRA_HOT_<=5D`, DOM = 8 gives `HOT_MARKET_<=10D`, and DOM = 11 with no
days-to-pending gives `""`. -/
theorem hot_market_tag_thresholds :
    (∀ (dom : Int) (dtp : Option Int),
      buildHotMarketTag dom dtp =
        if (0 < dom ∧ dom ≤ 5) ∨ (∃ v, dtp = some v ∧ v ≤ 5) then
          "ULTRA_HOT_<=5D"
        else if (0 < dom ∧ dom ≤ 10) ∨ (∃ v, dtp = some v ∧ v ≤ 10) then
          "HOT_MARKET_<=10D"
        else "") ∧
    buildHotMarketTag 5 none = "ULTRA_HOT_<=5D" ∧
    buildHotMarketTag 8 none = "HOT_MARKET_<=10D" ∧
    buildHotMarketTag 11 none = "" := by
  have hc : ∀ (dom : Int) (dtp : Option Int) (k : Int),
      ((dom > 0 && dom ≤ k) || leOpt dtp k) = true ↔
        ((0 < dom ∧ dom ≤ k) ∨ (∃ v, dtp = some v ∧ v ≤ k)) := by
    intro dom dtp k
    cases dtp <;> simp [leOpt]
  refine ⟨?_, by decide, by decide, by decide⟩
  intro dom dtp
  unfold buildHotMarketTag
  by_cases h1 : (0 < dom ∧ dom ≤ 5) ∨ (∃ v, dtp = some v ∧ v ≤ 5)
  · rw [if_pos h1, if_pos ((hc dom dtp 5).mpr h1)]
  · rw [if_neg h1, if_neg (fun hb => h1 ((hc dom dtp 5).mp hb))]
    by_cases h2 : (0 < dom ∧ dom ≤ 10) ∨ (∃ v, dtp = some v ∧ v ≤ 10)
    · rw [if_pos h2, if_pos ((hc dom dtp 10).mpr h2)]
    · rw [if_neg h2, if_neg (fun hb => h2 ((hc dom dtp 10).mp hb))]

theorem chooseBestMatch_unused {base : CountyRow} {cands : List MlsRow}
    {used : List Nat} {m : Best}
    (h : chooseBestMatch base cands used = some m) :
    used.contains m.candidate.uid = false :=
  (evalClosedCandidate_spec (chooseBestMatch_some h).2.1).2.2

theorem chooseBestListingStub_unused {base : CountyRow} {cands : List MlsRow}
    {used : List Nat} {m : Best}
    (h : chooseBestListingStub base cands used = some m) :
    used.contains m.candidate.uid = false :=
  (evalStubCandidate_spec (chooseBestListingStub_some h).2.1).2.2

theorem processRows_cons (ci si : String → List MlsRow) (r : CountyRow)
    (rs : List CountyRow) (used0 : List Nat) :
    processRows ci si (r :: rs) used0 =
      ((processRow ci si used0 r).1 ::
        (processRows ci si rs (processRow ci si used0 r).2).1,
       (processRows ci si rs (processRow ci si used0 r).2).2) := rfl

theorem processRow_used_cases (ci si : String → List MlsRow) (used : List Nat)
    (row : CountyRow) :
    ((processRow ci si used row).1.matchedUid = none ∧
      (processRow ci si used row).2 = used) ∨
    (∃ u, (processRow ci si used row).1.matchedUid = some u ∧
      (processRow ci si used row).2 = u :: used ∧
      used.contains u = false) := by
  rcases h1 : chooseBestMatch row (ci row.parcel) used with _ | m
  · rcases h2 : chooseBestListingStub row (si row.parcel) used with _ | s
    · left
      simp [processRow, h1, h2]
    · right
      exact ⟨s.candidate.uid, by simp [processRow, h1, h2],
        by simp [processRow, h1, h2], chooseBestListingStub_unused h2⟩
  · right
    exact ⟨m.candidate.uid, by simp [processRow, h1],
      by simp [processRow, h1], chooseBestMatch_unused h1⟩

theorem processRows_spec (ci si : String → List MlsRow) :
    ∀ (crows : List CountyRow) (used0 : List Nat),
      (∀ u ∈ used0, u ∈ (processRows ci si crows used0).2) ∧
      (∀ u ∈ (processRows ci si crows used0).1.filterMap MergedRow.matchedUid,
        u ∈ (processRows ci si crows used0).2 ∧ u ∉ used0) ∧
      ((processRows ci si crows used0).1.filterMap MergedRow.matchedUid).Nodup := by
  intro crows
  induction crows with
  | nil =>
    intro used0
    simp [processRows]
  | cons r rs ih =>
    intro used0
    rcases processRow_used_cases ci si used0 r with ⟨hnone, hused⟩ |
      ⟨u, hsome, hused, hfree⟩
    · rw [processRows_cons, hused]
      obtain ⟨hgrow, hsel, hnd⟩ := ih used0
      refine ⟨hgrow, ?_, ?_⟩
      · intro v hv
        rw [List.filterMap_cons, hnone] at hv
        exact hsel v hv
      · rw [List.filterMap_cons, hnone]
        exact hnd
    · rw [processRows_cons, hused]
      obtain ⟨hgrow, hsel, hnd⟩ := ih (u :: used0)
      have hufree : u ∉ used0 := by
        intro hmem
        have hc : used0.contains u = true := List.elem_eq_true_of_mem hmem
        rw [hfree] at hc
        cases hc
      refine ⟨?_, ?_, ?_⟩
      · intro v hv
        exact hgrow v (List.mem_cons_of_mem u hv)
      · intro v hv
        rw [List.filterMap_cons, hsome] at hv
        rcases List.mem_cons.mp hv with rfl | hv'
        · exact ⟨hgrow v (List.mem_cons_self v used0), hufree⟩
        · obtain ⟨hin, hnotin⟩ := hsel v hv'
          exact ⟨hin, fun hm => hnotin (List.mem_cons_of_mem u hm)⟩
      · rw [List.filterMap_cons, hsome]
        refine List.Nodup.cons ?_ hnd
        intro hmem
        exact (hsel u hmem).2 (List.mem_cons_self u used0)

/-- C3: No realtor uid is consumed by more than one county match (closed or
stub) in a run: the selected uids of a whole matching pass are pairwise
distinct; the exclusion set only grows and ends up containing every
selection; both matchers reject candidates already in the set; and a
selected uid enters the set immediately, in the same step. -/
theorem realtor_uid_consumed_at_most_once :
    ∀ (ci si : String → List MlsRow) (crows : List CountyRow)
      (used0 : List Nat),
      ((processRows ci si crows used0).1.filterMap MergedRow.matchedUid).Nodup ∧
      (∀ u ∈ used0, u ∈ (processRows ci si crows used0).2) ∧
      (∀ u ∈ (processRows ci si crows used0).1.filterMap MergedRow.matchedUid,
        u ∈ (processRows ci si crows used0).2 ∧ u ∉ used0) ∧
      (∀ (base : CountyRow) (cands : List MlsRow) (used : List Nat) (m : Best),
        chooseBestMatch base cands used = some m →
        used.contains m.candidate.uid = false) ∧
      (∀ (base : CountyRow) (cands : List MlsRow) (used : List Nat) (m : Best),
        chooseBestListingStub base cands used = some m →
        used.contains m.candidate.uid = false) ∧
      (∀ (used : List Nat) (row : CountyRow) (u : Nat),
        (processRow ci si used row).1.matchedUid = some u →
        (processRow ci si used row).2 = u :: used) := by
  intro ci si crows used0
  obtain ⟨hgrow, hsel, hnd⟩ := processRows_spec ci si crows used0
  refine ⟨hnd, hgrow, hsel, fun _ _ _ _ h => chooseBestMatch_unused h,
    fun _ _ _ _ h => chooseBestListingStub_unused h, ?_⟩
  intro used row u hu
  rcases processRow_used_cases ci si used row with ⟨hn, _⟩ | ⟨v, hv, hused, _⟩
  · rw [hn] at hu
    cases hu
  · rw [hv] at hu
    cases hu
    exact hused

theorem realtor_uid_consumed_at_most_once_witness :
    ((processRows (fun _ => [exCandLag3, exCandLag1]) (fun _ => [])
        [exBase, exBase] []).1.filterMap MergedRow.matchedUid).Nodup ∧
    (∀ u ∈ (processRows (fun _ => [exCandLag3, exCandLag1]) (fun _ => [])
        [exBase, exBase] []).1.filterMap MergedRow.matchedUid,
      u ∉ ([] : List Nat)) := by
  have h := realtor_uid_consumed_at_most_once
    (fun _ => [exCandLag3, exCandLag1]) (fun _ => []) [exBase, exBase] []
  exact ⟨h.1, fun u hu => (h.2.2.1 u hu).2⟩

/-- C4: For every county record, closed-sale matching is attempted first and
listing-stub matching only when it fails: the join-method tag of the row is
`APN_PRICE_DATE_WINDOW` exactly when the closed matcher succeeds,
`APN_LISTING_STUB` exactly when the closed matcher fails and the stub
matcher succeeds, and empty exactly when both fail — so no record carries
both kinds of match — and a record matched by neither keeps its loaded
dataMode (`PUBLIC_PROXY`), while a matched one is tagged `MLS_ENRICHED`. -/
theorem county_row_match_priority :
    ∀ (ci si : String → List MlsRow) (used : List Nat) (row : CountyRow),
      ((processRow ci si used row).1.mlsJoinMethod = "APN_PRICE_DATE_WINDOW" ↔
        (chooseBestMatch row (ci row.parcel) used).isSome) ∧
      ((processRow ci si used row).1.mlsJoinMethod = "APN_LISTING_STUB" ↔
        (chooseBestMatch row (ci row.parcel) used = none ∧
         (chooseBestListingStub row (si row.parcel) used).isSome)) ∧
      ((processRow ci si used row).1.mlsJoinMethod = "" ↔
        (chooseBestMatch row (ci row.parcel) used = none ∧
         chooseBestListingStub row (si row.parcel) used = none)) ∧
      ((processRow ci si used row).1.mlsJoinMethod = "" →
        (processRow ci si used row).1.dataMode = row.dataMode) ∧
      ((processRow ci si used row).1.mlsJoinMethod ≠ "" →
        (processRow ci si used row).1.dataMode = "MLS_ENRICHED") := by
  intro ci si used row
  rcases h1 : chooseBestMatch row (ci row.parcel) used with _ | m
  · rcases h2 : chooseBestListingStub row (si row.parcel) used with _ | s
    · simp [processRow, h1, h2]
    · simp [processRow, h1, h2]
  · simp [processRow, h1]

theorem county_row_match_priority_witness :
    (processRow (fun _ => []) (fun _ => []) [] exBase).1.mlsJoinMethod = "" ∧
    (processRow (fun _ => []) (fun _ => []) [] exBase).1.dataMode =
      exBase.dataMode := by
  have h := county_row_match_priority (fun _ => []) (fun _ => []) [] exBase
  have hj : (processRow (fun _ => []) (fun _ => []) [] exBase).1.mlsJoinMethod
      = "" := by
    exact h.2.2.1.mpr ⟨by decide, by decide⟩
  exact ⟨hj, h.2.2.2.1 hj⟩

/-- C6 (amended): a county record whose sale date does not parse or whose
close price is exactly zero attempts no matching: both matchers return no
match, the row keeps its loaded dataMode (`PUBLIC_PROXY`), its join-method
column stays empty, and the exclusion set is unchanged.  (A negative close
price, by contrast, does attempt matching — see the counterexample.) -/
theorem no_matching_when_invalid_date_or_zero_price :
    ∀ (base : CountyRow) (cands cands2 : List MlsRow) (used : List Nat)
      (ci si : String → List MlsRow),
      (base.saleDate.toDate = none ∨ base.closePrice = 0) →
      chooseBestMatch base cands used = none ∧
      chooseBestListingStub base cands2 used = none ∧
      (processRow ci si used base).1.dataMode = base.dataMode ∧
      (processRow ci si used base).1.mlsJoinMethod = "" ∧
      (processRow ci si used base).2 = used := by
  intro base cands cands2 used ci si hg
  have h1 : ∀ cs : List MlsRow, chooseBestMatch base cs used = none := by
    intro cs
    unfold chooseBestMatch
    rw [if_pos hg]
  have h2 : ∀ cs : List MlsRow, chooseBestListingStub base cs used = none := by
    intro cs
    unfold chooseBestListingStub
    rw [if_pos hg]
  refine ⟨h1 _, h2 _, ?_, ?_, ?_⟩ <;>
    simp [processRow, h1, h2]

theorem no_matching_when_invalid_date_or_zero_price_witness :
    chooseBestMatch cexZeroBase [exCandLag3] [] = none ∧
    chooseBestListingStub cexZeroBase [cexStubA] [] = none := by
  have h := no_matching_when_invalid_date_or_zero_price cexZeroBase
    [exCandLag3] [cexStubA] [] (fun _ => []) (fun _ => []) (Or.inr rfl)
  exact ⟨h.1, h.2.1⟩

/-- C6 counterexample: a county record with a negative close price (which
is not positive) does have matching attempted and receives a closed match,
contradicting "lacking a positive close price ⟹ no matching is attempted".
The guard `!basePrice` in the code only rejects a zero close price. -/
theorem negative_close_price_matches_cex :
    ¬ (0 < cexNegBase.closePrice) ∧
    (chooseBestMatch cexNegBase [cexNegCand] []).isSome ∧
    (processRow (fun _ => [cexNegCand]) (fun _ => []) [] cexNegBase).1.dataMode
      = "MLS_ENRICHED" := by
  decide

theorem synthClosedOne_guarded {used : List Nat}
    {known : List (String × NDate × Int)} {c : MlsRow}
    (hu : used.contains c.uid = false) (ha : c.apn ≠ "")
    (hd : c.sellingDate.nonempty = true) (hp : 0 < c.sellingPrice) :
    synthClosedOne used known c =
      (if (c.apn, c.sellingDate, c.sellingPrice) ∈ known then none
       else some ⟨c.uid, "MLS_ENRICHED", "MLS_SOLD_NOT_IN_COUNTY"⟩) := by
  unfold synthClosedOne
  rw [hu]
  simp only [Bool.false_eq_true, if_false]
  rw [if_neg]
  intro hbad
  rcases hbad with hbad | hbad | hbad
  · exact ha hbad
  · rw [hd] at hbad
    cases hbad
  · omega

theorem synthClosedOne_uid {used : List Nat}
    {known : List (String × NDate × Int)} {c : MlsRow} {r : SynthRow}
    (h : synthClosedOne used known c = some r) : r.uid = c.uid := by
  unfold synthClosedOne at h
  split_ifs at h
  cases h
  rfl

theorem synthClosedRows_cons (a : MlsRow) (rows : List MlsRow)
    (used : List Nat) (known : List (String × NDate × Int)) :
    synthClosedRows (a :: rows) used known =
      (match synthClosedOne used known a with
       | none => synthClosedRows rows used known
       | some b => b :: synthClosedRows rows used known) := by
  cases h : synthClosedOne used known a <;>
    simp [synthClosedRows, List.filterMap_cons, h]

theorem synthClosedRows_uid_sub {rows : List MlsRow} {used : List Nat}
    {known : List (String × NDate × Int)} {r : SynthRow}
    (hr : r ∈ synthClosedRows rows used known) :
    r.uid ∈ rows.map MlsRow.uid := by
  obtain ⟨c, hc, hcr⟩ := List.mem_filterMap.mp hr
  rw [synthClosedOne_uid hcr]
  exact List.mem_map_of_mem _ hc

theorem synthOpenRows_uid_sub {rows : List MlsRow} {used : List Nat}
    {r : SynthRow} (hr : r ∈ synthOpenRows rows used) :
    r.uid ∈ rows.map MlsRow.uid := by
  obtain ⟨c, hc, hcr⟩ := List.mem_filterMap.mp hr
  have : r.uid = c.uid := by
    split_ifs at hcr
    cases hcr
    rfl
  rw [this]
  exact List.mem_map_of_mem _ hc

/-- C7: A closed realtor record never marked used is skipped by the
supplemental synthesizer exactly when its (parcel key, sale date, sale
price) triple matches a known county sale signature; otherwise it
contributes exactly one standalone row, tagged `dataMode = MLS_ENRICHED`
and `mlsJoinMethod = MLS_SOLD_NOT_IN_COUNTY`. -/
theorem synth_emits_unless_known_signature :
    ∀ (rows : List MlsRow) (used : List Nat)
      (known : List (String × NDate × Int)) (c : MlsRow),
      c ∈ rows → (rows.map MlsRow.uid).Nodup →
      used.contains c.uid = false → c.apn ≠ "" →
      c.sellingDate.nonempty = true → 0 < c.sellingPrice →
      (synthClosedRows rows used known).filter (fun r => r.uid == c.uid) =
        (if (c.apn, c.sellingDate, c.sellingPrice) ∈ known then []
         else [⟨c.uid, "MLS_ENRICHED", "MLS_SOLD_NOT_IN_COUNTY"⟩]) := by
  intro rows
  induction rows with
  | nil =>
    intro used known c hmem
    exact absurd hmem (by simp)
  | cons a rows ih =>
    intro used known c hmem hnd hu ha hd hp
    have hndhead : a.uid ∉ rows.map MlsRow.uid := (List.nodup_cons.mp hnd).1
    have hndtail : (rows.map MlsRow.uid).Nodup := (List.nodup_cons.mp hnd).2
    have hcompl : ∀ r ∈ synthClosedRows rows used known, r.uid ≠ a.uid := by
      intro r hr heq
      exact hndhead (heq ▸ synthClosedRows_uid_sub hr)
    rcases List.mem_cons.mp hmem with rfl | hctail
    · rw [synthClosedRows_cons]
      rw [synthClosedOne_guarded hu ha hd hp]
      by_cases hk : (c.apn, c.sellingDate, c.sellingPrice) ∈ known
      · rw [if_pos hk, if_pos hk]
        exact List.filter_eq_nil_iff.mpr
          (fun r hr => by simpa using hcompl r hr)
      · rw [if_neg hk, if_neg hk]
        simp only [List.filter_cons]
        rw [if_pos (by simp)]
        rw [List.filter_eq_nil_iff.mpr (fun r hr => by simpa using hcompl r hr)]
    · have hauid : a.uid ≠ c.uid := by
        intro heq
        exact hndhead (heq ▸ List.mem_map_of_mem _ hctail)
      rw [synthClosedRows_cons]
      rcases hone : synthClosedOne used known a with _ | b
      · exact ih used known c hctail hndtail hu ha hd hp
      · simp only [List.filter_cons]
        rw [if_neg (by simp [synthClosedOne_uid hone, hauid])]
        exact ih used known c hctail hndtail hu ha hd hp

theorem synth_emits_unless_known_signature_witness :
    (synthClosedRows [exCandLag3] [] []).filter
        (fun r => r.uid == exCandLag3.uid) =
      [⟨exCandLag3.uid, "MLS_ENRICHED", "MLS_SOLD_NOT_IN_COUNTY"⟩] ∧
    (synthClosedRows [exCandLag3] []
        [(exCandLag3.apn, exCandLag3.sellingDate, exCandLag3.sellingPrice)]).filter
        (fun r => r.uid == exCandLag3.uid) = [] := by
  constructor
  · have h := synth_emits_unless_known_signature [exCandLag3] [] [] exCandLag3
      (by simp) (by decide) (by decide) (by decide) (by decide) (by decide)
    simpa using h
  · have h := synth_emits_unless_known_signature [exCandLag3] []
      [(exCandLag3.apn, exCandLag3.sellingDate, exCandLag3.sellingPrice)] exCandLag3
      (by simp) (by decide) (by decide) (by decide) (by decide) (by decide)
    simpa using h

theorem run_error {pd : String → NDate} {fs : FileSystem} (now : String)
    {e : PipelineError} (hc : runCore pd fs = .error e) :
    run pd fs now = ([], some e) := by
  unfold run
  rw [hc]

theorem run_ok {pd : String → NDate} {fs : FileSystem} (now : String)
    {r : RunOk} (hc : runCore pd fs = .ok r) :
    run pd fs now =
      ([⟨outputCsvName, r.csv⟩,
        ⟨reportJsonName, reportJson now r.realtorFileNames r.counts⟩],
       none) := by
  unfold run
  rw [hc]

/-- C8: Every fatal error — missing base dataset, missing realtor
directory, no realtor CSV files, an unlocatable header row, missing
required realtor columns — aborts the run before any output is written:
when the run ends in an error, its write trace is empty (neither the
enriched CSV nor the JSON report was written). -/
theorem fatal_error_writes_nothing :
    ∀ (pd : String → NDate) (fs : FileSystem) (now : String)
      (e : PipelineError),
      (run pd fs now).2 = some e → (run pd fs now).1 = [] := by
  intro pd fs now e h
  rcases hc : runCore pd fs with e2 | r
  · rw [run_error now hc]
  · rw [run_ok now hc] at h
    simp at h

theorem fatal_error_writes_nothing_witness :
    (run pdEmptyParse fsNoBase "t").2 = some PipelineError.missingBase ∧
    (run pdEmptyParse fsNoBase "t").1 = [] := by
  refine ⟨by decide, ?_⟩
  exact fatal_error_writes_nothing pdEmptyParse fsNoBase "t"
    PipelineError.missingBase (by decide)

set_option maxRecDepth 40000 in
set_option maxHeartbeats 4000000 in
/-- C9 counterexample: the JSON report embeds the wall-clock
timestamp (`generatedAt: new Date().toISOString()`), so two runs on
identical inputs at different instants do not write identical bytes: on a
concrete complete input the two write traces differ in the report
artifact. -/
theorem rerun_not_byte_identical_cex :
    ¬ ∀ (pd : String → NDate) (fs : FileSystem) (t1 t2 : String),
        run pd fs t1 = run pd fs t2 := by
  intro h
  have h2 := h pdEmptyParse fsEx "2025-01-01T00:00:00.000Z"
    "2025-01-01T00:00:00.001Z"
  exact absurd h2 (by decide)

/-- C9 (amended): re-running the pipeline on identical inputs writes a
byte-identical enriched CSV, the same artifact paths, and has identical
error behavior; the JSON report embeds the run timestamp `generatedAt`, so
its bytes coincide (and the whole run output is identical) when the two
timestamps of the two runs coincide. -/
theorem rerun_csv_byte_identical :
    ∀ (pd : String → NDate) (fs : FileSystem) (t1 t2 : String),
      (run pd fs t1).1.map WriteEvent.path =
        (run pd fs t2).1.map WriteEvent.path ∧
      (run pd fs t1).1.filter (fun w => w.path == outputCsvName) =
        (run pd fs t2).1.filter (fun w => w.path == outputCsvName) ∧
      (run pd fs t1).2 = (run pd fs t2).2 ∧
      (t1 = t2 → run pd fs t1 = run pd fs t2) := by
  intro pd fs t1 t2
  have hep : (reportJsonName == outputCsvName) = false := by decide
  have hcsv : (outputCsvName == outputCsvName) = true := by decide
  rcases hc : runCore pd fs with e | r
  · rw [run_error t1 hc, run_error t2 hc]
    exact ⟨rfl, rfl, rfl, fun _ => rfl⟩
  · rw [run_ok t1 hc, run_ok t2 hc]
    refine ⟨by simp, ?_, rfl, fun h => by rw [h]⟩
    simp [List.filter_cons, hep, hcsv]

theorem rerun_csv_byte_identical_witness :
    run pdEmptyParse fsEx "T" = run pdEmptyParse fsEx "T" :=
  (rerun_csv_byte_identical pdEmptyParse fsEx "T" "T").2.2.2 rfl

theorem processRow_matched_source (ci si : String → List MlsRow)
    (used : List Nat) (row : CountyRow) {u : Nat}
    (h : (processRow ci si used row).1.matchedUid = some u) :
    (∃ c ∈ ci row.parcel, c.uid = u) ∨ (∃ c ∈ si row.parcel, c.uid = u) := by
  rcases h1 : chooseBestMatch row (ci row.parcel) used with _ | m
  · rcases h2 : chooseBestListingStub row (si row.parcel) used with _ | s
    · simp [processRow, h1, h2] at h
    · simp only [processRow, h1, h2] at h
      cases h
      exact Or.inr ⟨s.candidate, (chooseBestListingStub_some h2).1, rfl⟩
  · simp only [processRow, h1] at h
    cases h
    exact Or.inl ⟨m.candidate, (chooseBestMatch_some h1).1, rfl⟩

theorem processRows_matched_sources (ci si : String → List MlsRow) :
    ∀ (crows : List CountyRow) (used0 : List Nat) (u : Nat),
      u ∈ (processRows ci si crows used0).1.filterMap MergedRow.matchedUid →
      ∃ p, (∃ c ∈ ci p, c.uid = u) ∨ (∃ c ∈ si p, c.uid = u) := by
  intro crows
  induction crows with
  | nil =>
    intro used0 u h
    simp [processRows] at h
  | cons r rs ih =>
    intro used0 u h
    rw [processRows_cons, List.filterMap_cons] at h
    rcases hm : (processRow ci si used0 r).1.matchedUid with _ | v
    · rw [hm] at h
      exact ih _ u h
    · rw [hm] at h
      rcases List.mem_cons.mp h with rfl | h2
      · exact ⟨r.parcel, processRow_matched_source ci si used0 r hm⟩
      · exact ih _ u h2

/-- C10: A realtor record whose closed flag is true but which lacks a
non-empty normalized selling date or a positive selling price lands in
neither candidate bucket, is never consumed by any county match (closed or
stub), and is synthesized by neither supplemental pass — it contributes no
row to the output beyond its count in the parsed-rows total. -/
theorem closed_row_without_sale_data_inert :
    ∀ (rows : List MlsRow) (r : MlsRow),
      r ∈ rows → r.isClosed = true →
      (r.sellingDate.nonempty = false ∨ r.sellingPrice ≤ 0) →
      r ∉ mlsClosedRowsOf rows ∧
      r ∉ mlsOpenRowsOf rows ∧
      ((rows.map MlsRow.uid).Nodup →
        (∀ (crows : List CountyRow) (used0 : List Nat) (u : Nat),
          u ∈ (processRows (closedCandsFor rows) (stubCandsFor rows) crows
              used0).1.filterMap MergedRow.matchedUid → u ≠ r.uid) ∧
        (∀ (used : List Nat) (known : List (String × NDate × Int))
           (s : SynthRow),
           s ∈ synthClosedRows (mlsClosedRowsOf rows) used known →
           s.uid ≠ r.uid) ∧
        (∀ (used : List Nat) (s : SynthRow),
           s ∈ synthOpenRows (mlsOpenRowsOf rows) used → s.uid ≠ r.uid)) := by
  intro rows r hmem hcl hbad
  have hnotclosed : r ∉ mlsClosedRowsOf rows := by
    intro h
    have hp := (List.mem_filter.mp h).2
    simp only [Bool.and_eq_true, decide_eq_true_eq] at hp
    obtain ⟨⟨_, hne⟩, hpp⟩ := hp
    rcases hbad with hb | hb
    · rw [hb] at hne
      cases hne
    · omega
  have hnotopen : r ∉ mlsOpenRowsOf rows := by
    intro h
    have hp := (List.mem_filter.mp h).2
    simp only [Bool.not_eq_true'] at hp
    rw [hcl] at hp
    cases hp
  refine ⟨hnotclosed, hnotopen, ?_⟩
  intro hnd
  have hinj := List.inj_on_of_nodup_map hnd
  have hclosed_uid : ∀ c ∈ mlsClosedRowsOf rows, c.uid ≠ r.uid := by
    intro c hc heq
    have hcrows : c ∈ rows := (List.mem_filter.mp hc).1
    have hcr : c = r := hinj hcrows hmem heq
    rw [hcr] at hc
    exact hnotclosed hc
  have hopen_uid : ∀ c ∈ mlsOpenRowsOf rows, c.uid ≠ r.uid := by
    intro c hc heq
    have hcrows : c ∈ rows := (List.mem_filter.mp hc).1
    have hcr : c = r := hinj hcrows hmem heq
    rw [hcr] at hc
    exact hnotopen hc
  refine ⟨?_, ?_, ?_⟩
  · intro crows used0 u hu heq
    obtain ⟨p, hsrc⟩ :=
      processRows_matched_sources (closedCandsFor rows) (stubCandsFor rows)
        crows used0 u hu
    rcases hsrc with ⟨c, hc, hcu⟩ | ⟨c, hc, hcu⟩
    · have hcb : c ∈ mlsClosedRowsOf rows := (List.mem_filter.mp hc).1
      exact hclosed_uid c hcb (by rw [hcu, heq])
    · have h1 : c ∈ (mlsOpenRowsOf rows).filter
          (fun q => q.listingPrice > 0) := (List.mem_filter.mp hc).1
      have hcb : c ∈ mlsOpenRowsOf rows := (List.mem_filter.mp h1).1
      exact hopen_uid c hcb (by rw [hcu, heq])
  · intro used known s hs heq
    obtain ⟨c, hc, hcu⟩ := List.mem_map.mp (synthClosedRows_uid_sub hs)
    exact hclosed_uid c hc (by rw [hcu, heq])
  · intro used s hs heq
    obtain ⟨c, hc, hcu⟩ := List.mem_map.mp (synthOpenRows_uid_sub hs)
    exact hopen_uid c hc (by rw [hcu, heq])

theorem closed_row_without_sale_data_inert_witness :
    cexInertRow ∉ mlsClosedRowsOf [cexInertRow] ∧
    cexInertRow ∉ mlsOpenRowsOf [cexInertRow] := by
  have h := closed_row_without_sale_data_inert [cexInertRow] cexInertRow
    (by simp) (by decide) (Or.inl (by decide))
  exact ⟨h.1, h.2.1⟩

end SeattlePending
